import Mathlib

/-!
Verification of the go-stash in-process key-value store (nooize/go-stash).

Shallow embedding of the store (src/stash.go), the event chain
(src/events.go) and the construction options (src/unnamed/part_004).
Time instants are `Int` nanoseconds (Go `UnixNano`); durations are `Int`
nanoseconds (Go `time.Duration`, an int64).  Go int64 arithmetic that can
overflow is wrapped through `wrap64`.  A Go operation that can panic is
modelled with the `GoRes.panicked` result; a value `nil` interface, typed
values and pointers are the constructors of `GoVal`.

Each store operation is a function from the store state to the result of the operation, the successor state, and the list of events the operation hands to
`events.fire` (argument evaluation of the `go` statement happens in the
caller, so a nil dereference in an argument is a panic of the operation
itself).  The per-tick body of the sweeper and the option constructors are
embedded as plain functions.
-/

set_option autoImplicit false

namespace GoStash

/-- Event kinds, src/events.go: EventAny, EventGet, EventMiss, EventSet,
EventUpdate, EventTouch, EventError, EventRemove, EventExpire, EventFlush,
EventClean. -/
inductive Event where
  | any | get | miss | set | update | touch | error | remove | expire | flush | clean
  deriving DecidableEq, Repr

/-- Widths of Go signed integer types (int, int8, int16, int32, int64). -/
inductive IntW where
  | i | i8 | i16 | i32 | i64
  deriving DecidableEq, Repr

/-- Widths of Go unsigned integer types (uint, uint8, uint16, uint32, uint64). -/
inductive UintW where
  | u | u8 | u16 | u32 | u64
  deriving DecidableEq, Repr

/-- A Go `interface{}` value of the kinds the stash code inspects: the nil
interface, signed and unsigned integers with their dynamic type width,
`time.Duration` (int64 nanoseconds), `time.Time` (kept as its UnixNano),
`*time.Time` (possibly nil), strings, booleans.  Strings and booleans stand
for the "any other type" arms of the Go type switches. -/
inductive GoVal where
  | vnil
  | vint (w : IntW) (n : Int)
  | vuint (w : UintW) (n : Nat)
  | vdur (d : Int)
  | vtime (t : Int)
  | vptrTime (t : Option Int)
  | vstr (s : String)
  | vbool (b : Bool)
  deriving DecidableEq, Repr

/-- `NoExpire time.Duration = -1` (src/unnamed/part_004). -/
def NoExpire : Int := -1

/-- `DefaultExpire time.Duration = 0` (src/unnamed/part_004). -/
def DefaultExpire : Int := 0

/-- `time.Second` in nanoseconds. -/
def SecondNs : Int := 1000000000

/-- `time.Millisecond` in nanoseconds. -/
def MillisecondNs : Int := 1000000

/-- `DefaultCgPeriod = 5 * time.Minute` (src/unnamed/part_004). -/
def DefaultCgPeriod : Int := 5 * 60 * SecondNs

/-- `NoLenLimit int = 0` (src/unnamed/part_004). -/
def NoLenLimit : Int := 0

/-- Reduce an integer to the Go int64 wraparound range. -/
def wrap64 (n : Int) : Int := (n + 2 ^ 63) % 2 ^ 64 - 2 ^ 63

/-- The `time.Duration` arm of `toTime` (src/stash.go lines 192-200):
`DefaultExpire` and `NoExpire` are returned as their own int64 sentinels,
any other duration recurses on `time.Now().Add(dur)`, whose `UnixNano` the
`time.Time` arm returns verbatim; the recursion is inlined here. -/
def durToTime (now d : Int) : Int :=
  if d = DefaultExpire then DefaultExpire
  else if d = NoExpire then NoExpire
  else wrap64 (now + d)

/-- `toTime` (src/stash.go lines 183-209), with the one-step recursions of
the integer and duration arms inlined.  `none` models a panic: the integer
arms select on the dynamic type being any signed (resp. unsigned) width but
then hard-assert `i.(int64)` (resp. `i.(uint64)`), which panics for every
other width.  A nil interface yields `NoExpire`; a nil `*time.Time` falls
through the switch; an unrecognized type returns `int64(DefaultExpire)`. -/
def toTime (now : Int) : GoVal → Option Int
  | .vnil => some NoExpire
  | .vint w n => if w = .i64 then some (durToTime now (wrap64 (SecondNs * n))) else none
  | .vuint w n => if w = .u64 then some (durToTime now (wrap64 (SecondNs * wrap64 n))) else none
  | .vdur d => some (durToTime now d)
  | .vtime t => some t
  | .vptrTime (some t) => some t
  | .vptrTime none => some DefaultExpire
  | .vstr _ => some DefaultExpire
  | .vbool _ => some DefaultExpire

/-- Result of a Go call: a normal value, an `error`, or a runtime panic. -/
inductive GoRes (α : Type) where
  | ok (a : α)
  | err (msg : String)
  | panicked
  deriving DecidableEq, Repr

/-- `resolveTime` (src/stash.go lines 170-181): `expire` starts at the
int64 zero value, is set from `toTime(i[1])` when more than one variadic
argument is present, is replaced by `toTime(c.expirePeriod)` when it equals
`int64(DefaultExpire)`, and a positive deadline already before `now` is the
error `"expire time is in the past"`. -/
def resolveTime (now expirePeriod : Int) (i : List GoVal) : GoRes Int :=
  match (if 1 < i.length then toTime now (i.getD 1 .vnil) else some DefaultExpire) with
  | none => .panicked
  | some e0 =>
    match (if e0 = DefaultExpire then toTime now (.vdur expirePeriod) else some e0) with
    | none => .panicked
    | some expire =>
      if 0 < expire ∧ expire < now then .err "expire time is in the past" else .ok expire

/-- `item` (src/stash.go): stored object and int64 deadline (0 or negative
means no deadline at `Get`). -/
structure Item where
  Object : GoVal
  expire : Int
  deriving DecidableEq, Repr

/-- The guarded `map[string]*item`, as an association list keyed without
duplicates by the operations of the store. -/
abbrev Items := List (String × Item)

/-- Go map lookup `c.items[key]`. -/
def lookupItem : Items → String → Option Item
  | [], _ => none
  | (k', it) :: rest, k => if k' = k then some it else lookupItem rest k

/-- In-place mutation of the entry already bound to `k`. -/
def updateItem : Items → String → Item → Items
  | [], _, _ => []
  | (k', it') :: rest, k, it =>
      if k' = k then (k', it) :: rest else (k', it') :: updateItem rest k it

/-- Go map `delete(c.items, key)`. -/
def eraseItem : Items → String → Items
  | [], _ => []
  | (k', it') :: rest, k => if k' = k then rest else (k', it') :: eraseItem rest k

/-- The fields of the `stash` struct that the embedded operations read or write
(src/stash.go lines 21-30); the lock, the event chain and the gc handle are
modelled outside the state. -/
structure StashSt where
  expirePeriod : Int
  gcPeriod : Int
  lenLimit : Int
  lenCurrent : Int
  items : Items
  deriving DecidableEq, Repr

/-- The third argument handed to `events.fire`: untyped nil, an
`interface{}` object, or an `*item` (as `Get` passes on a hit). -/
inductive Payload where
  | pnil
  | pval (v : GoVal)
  | pitem (it : Item)
  deriving DecidableEq, Repr

/-- One emission handed to `events.fire`: kind, key, payload. -/
abbrev Fired := Event × String × Payload

/-- `Set` (src/stash.go lines 35-64): reject a missing or nil object, then
reject when a positive `lenLimit` is already reached (before looking the
key up), then resolve the deadline; on success update the existing entry in
place (firing `Update`) or insert a new one, recompute `lenCurrent`, and
fire `Set`. -/
def SetOp (st : StashSt) (key : String) (i : List GoVal) (now : Int) :
    GoRes Unit × StashSt × List Fired :=
  if i.length = 0 ∨ i.getD 0 .vnil = .vnil then (.err "object not provided", st, [])
  else if 0 < st.lenLimit ∧ st.lenLimit ≤ st.lenCurrent then (.err "len limit reached", st, [])
  else
    match resolveTime now st.expirePeriod i with
    | .panicked => (.panicked, st, [])
    | .err m => (.err m, st, [])
    | .ok expire =>
      match lookupItem st.items key with
      | some _ =>
        let its := updateItem st.items key ⟨i.getD 0 .vnil, expire⟩
        (.ok (), { st with items := its }, [(.update, key, .pval (i.getD 0 .vnil))])
      | none =>
        let its := (key, (⟨i.getD 0 .vnil, expire⟩ : Item)) :: st.items
        (.ok (), { st with items := its, lenCurrent := (its.length : Int) },
          [(.set, key, .pval (i.getD 0 .vnil))])

/-- `Touch` (src/stash.go lines 69-82): resolve the deadline from the
variadic arguments (an error is returned before touching), then set the new
deadline on the entry when the key is present and fire `Touch` with the
object of the entry; when the key is absent nothing happens and `nil` is
returned, exactly as on success. -/
def TouchOp (st : StashSt) (key : String) (i : List GoVal) (now : Int) :
    GoRes Unit × StashSt × List Fired :=
  match resolveTime now st.expirePeriod i with
  | .panicked => (.panicked, st, [])
  | .err m => (.err m, st, [])
  | .ok expire =>
    match lookupItem st.items key with
    | some it =>
      (.ok (), { st with items := updateItem st.items key { it with expire := expire } },
        [(.touch, key, .pval it.Object)])
    | none => (.ok (), st, [])

/-- `remove` (src/stash.go lines 92-103): look the key up, delete it and
recompute `lenCurrent` when present, then unconditionally evaluate
`o.Object` as the event payload — when the key was absent `o` is the nil
`*item` and that field access is a nil-pointer dereference (a panic),
before anything is returned. -/
def removeOp (st : StashSt) (key : String) (event : Event) :
    GoRes (Option Item × Bool) × StashSt × List Fired :=
  match lookupItem st.items key with
  | some o =>
    let its := eraseItem st.items key
    (.ok (some o, true), { st with items := its, lenCurrent := (its.length : Int) },
      [(event, key, .pval o.Object)])
  | none => (.panicked, st, [])

/-- `Remove` (src/stash.go lines 86-88): `remove` with kind `Remove`. -/
def RemoveOp (st : StashSt) (key : String) : GoRes (Option Item × Bool) × StashSt × List Fired :=
  removeOp st key .remove

/-- `Get` (src/stash.go lines 108-118): a missing key, or an entry whose
positive deadline is before now, is a miss (fires `Miss`, returns
`nil, false`) — the entry itself is not touched; a hit fires `Get` with the
`*item` and returns the object. -/
def GetOp (st : StashSt) (key : String) (now : Int) :
    (Option GoVal × Bool) × StashSt × List Fired :=
  match lookupItem st.items key with
  | none => ((none, false), st, [(.miss, key, .pnil)])
  | some it =>
    if 0 < it.expire ∧ it.expire < now then ((none, false), st, [(.miss, key, .pnil)])
    else ((some it.Object, true), st, [(.get, key, .pitem it)])

/-- Model of Go `fmt.Sprintf` with the default verb on the embedded values
(`%!v` of a string is the string itself, of integers their decimal form, of
the nil interface the text nil in angle brackets; the duration, time and
pointer renderings are abbreviated to a definite textual form). -/
def sprintfV : GoVal → String
  | .vnil => "<nil>"
  | .vint _ n => toString n
  | .vuint _ n => toString n
  | .vdur d => toString d ++ "ns"
  | .vtime t => toString t
  | .vptrTime none => "<nil>"
  | .vptrTime (some t) => toString t
  | .vstr s => s
  | .vbool b => if b then "true" else "false"

/-- `GetString` (src/stash.go lines 120-130): delegate to `Get`; on a miss
return the empty string and false, on a hit return the value itself when
its dynamic type is string and otherwise `fmt.Sprintf` of it, with true. -/
def GetStringOp (st : StashSt) (key : String) (now : Int) :
    (String × Bool) × StashSt × List Fired :=
  match GetOp st key now with
  | ((v, ok), st', evs) =>
    if ok then
      match v with
      | some (.vstr s) => ((s, true), st', evs)
      | some v' => ((sprintfV v', true), st', evs)
      | none => ((sprintfV .vnil, true), st', evs)
    else (("", false), st', evs)

/-- `Len` (src/stash.go lines 134-136): the cached `lenCurrent` field. -/
def LenOp (st : StashSt) : Int := st.lenCurrent

/-- `Clean` (src/stash.go lines 139-145): replace the map with a fresh
empty one, recompute `lenCurrent` from it, fire `Clean`. -/
def CleanOp (st : StashSt) : StashSt × List Fired :=
  ({ st with items := [], lenCurrent := 0 }, [(.clean, "", .pnil)])

/-- The scan phase of `expire` (src/stash.go lines 153-162): the keys of
the entries whose positive deadline is before the scan instant. -/
def expiredKeys (its : Items) (now : Int) : List String :=
  (its.filter (fun p => decide (0 < p.2.expire ∧ p.2.expire < now))).map (fun p => p.1)

/-- The removal phase of `expire`: remove each collected key in turn
through `remove`; a panic in one removal aborts the remainder. -/
def sweepRemove (st : StashSt) (ev : Event) : List String → GoRes Unit × StashSt × List Fired
  | [] => (.ok (), st, [])
  | k :: ks =>
    match removeOp st k ev with
    | (.panicked, st', evs) => (.panicked, st', evs)
    | (_, st', evs) =>
      match sweepRemove st' ev ks with
      | (r, st'', evs') => (r, st'', evs ++ evs')

/-- `expire` (src/stash.go lines 153-168): scan, then remove the collected
keys with the given event kind. -/
def expireOp (st : StashSt) (ev : Event) (now : Int) : GoRes Unit × StashSt × List Fired :=
  sweepRemove st ev (expiredKeys st.items now)

/-- `Flush` (src/stash.go lines 148-150): `expire` tagged `Flush`. -/
def FlushOp (st : StashSt) (now : Int) : GoRes Unit × StashSt × List Fired :=
  expireOp st .flush now

/-- One event-chain link (src/events.go lines 112-116): the subscribed
kinds, the callback (identified by a number), the next link; a chain is the
list of links from the head. -/
structure EvHandler where
  hid : Nat
  events : List Event
  deriving DecidableEq, Repr

/-- The subscription loop inside `fire` (src/events.go lines 125-130): the
callback runs when some subscribed kind is `EventAny` or the fired kind,
and at most once (the loop returns at the first match). -/
def matchesHandler : List Event → Event → Bool
  | [], _ => false
  | e :: es, ev => if e = Event.any ∨ e = ev then true else matchesHandler es ev

/-- `fire` (src/events.go lines 118-131): walk the whole chain (the walk to
the tail is dispatched as its own goroutine but always happens), collecting
the callbacks invoked for this event. -/
def fire : List EvHandler → Event → List Nat
  | [], _ => []
  | h :: rest, ev => (if matchesHandler h.events ev then [h.hid] else []) ++ fire rest ev

/-- `OnEvent` (src/unnamed/part_004 lines 95-106): registering a callback
with a non-empty kind list prepends a link to the chain; an empty kind list
(or a nil callback, not representable here) leaves the chain unchanged. -/
def OnEvent (hid : Nat) (evs : List Event) (chain : List EvHandler) : List EvHandler :=
  if evs.length = 0 then chain else ⟨hid, evs⟩ :: chain

/-- The zero-value-plus-defaults stash built by `New`
(src/unnamed/part_004 lines 23-31) before options run. -/
def newDefault : StashSt :=
  { expirePeriod := DefaultExpire, gcPeriod := DefaultCgPeriod,
    lenLimit := NoLenLimit, lenCurrent := 0, items := [] }

/-- `GcPeriod` (src/unnamed/part_004 lines 66-73): any configured duration
below ten milliseconds is replaced by `DefaultCgPeriod`; the result is
stored as the sweep interval. -/
def GcPeriodOpt (dur : Int) : StashSt → StashSt := fun c =>
  { c with gcPeriod := if dur < 10 * MillisecondNs then DefaultCgPeriod else dur }

/-- `LenLimit` (src/unnamed/part_004 lines 46-52): a non-negative limit is
stored, a negative one ignored. -/
def LenLimitOpt (limit : Int) : StashSt → StashSt := fun c =>
  if NoLenLimit ≤ limit then { c with lenLimit := limit } else c

/-- `ExpireAfter` (src/unnamed/part_004 lines 55-64): a negative duration
becomes `NoExpire`, zero and positive are stored as given. -/
def ExpireAfterOpt (dur : Int) : StashSt → StashSt := fun c =>
  { c with expirePeriod := if dur < 0 then NoExpire else dur }

/-- `New` (src/unnamed/part_004 lines 23-44): apply the options to the
default state; the sweeper goroutine is started exactly when the resulting
`gcPeriod` is positive (the boolean of the pair). -/
def NewStash (opts : List (StashSt → StashSt)) : StashSt × Bool :=
  let c := opts.foldl (fun c opt => opt c) newDefault
  (c, decide (0 < c.gcPeriod))

/-- The live-count invariant of the spec: the cached `lenCurrent` equals
the number of keys in the mapping. -/
def lenInv (st : StashSt) : Prop := st.lenCurrent = (st.items.length : Int)

/-! Concrete stores used by closed theorems and witnesses. -/

/-- An empty stash with no limit, no default expiration, no sweep. -/
def emptyStash : StashSt :=
  { expirePeriod := 0, gcPeriod := 0, lenLimit := 0, lenCurrent := 0, items := [] }

/-- A stash at its capacity limit of one, holding key a. -/
def c1Store : StashSt :=
  { expirePeriod := 0, gcPeriod := 0, lenLimit := 1, lenCurrent := 1,
    items := [("a", ⟨.vstr "x", 0⟩)] }

/-- A stash holding key k with deadline 3 (expired once now passes 3). -/
def c7Store : StashSt :=
  { expirePeriod := 0, gcPeriod := 0, lenLimit := 0, lenCurrent := 1,
    items := [("k", ⟨.vstr "v", 3⟩)] }

/-! Helper lemmas about the map model. -/

theorem length_updateItem (its : Items) (k : String) (it : Item) :
    (updateItem its k it).length = its.length := by
  induction its with
  | nil => rfl
  | cons p rest ih =>
    cases p with
    | mk k' it' =>
      unfold updateItem
      split
      · rfl
      · simpa using ih

theorem lenInv_removeOp (st : StashSt) (k : String) (ev : Event)
    (h : lenInv st) : lenInv (removeOp st k ev).2.1 := by
  unfold removeOp
  cases hl : lookupItem st.items k with
  | none => exact h
  | some o => rfl

theorem lenInv_sweepRemove (ev : Event) (ks : List String) :
    ∀ st : StashSt, lenInv st → lenInv (sweepRemove st ev ks).2.1 := by
  induction ks with
  | nil => intro st h; exact h
  | cons k ks ih =>
    intro st h
    have h' := lenInv_removeOp st k ev h
    unfold sweepRemove
    rcases hrm : removeOp st k ev with ⟨r, st', evs⟩
    rw [hrm] at h'
    rcases hs : sweepRemove st' ev ks with ⟨r2, st2, evs2⟩
    have h2 := ih st' h'
    rw [hs] at h2
    cases r with
    | ok a => simpa [hs] using h2
    | err m => simpa [hs] using h2
    | panicked => exact h'

/-! Theorems settling the claims. -/

/-- Claim C1, counterexample: a store with capacity limit 1 that holds its
one key a rejects `Set` on that same, already present key with the
capacity error and leaves the store unchanged — refuting that updates to
existing keys are never rejected by capacity. -/
theorem set_update_at_capacity_rejected_cex :
    lookupItem c1Store.items "a" = some ⟨GoVal.vstr "x", 0⟩
      ∧ c1Store.lenLimit = 1 ∧ c1Store.lenCurrent = 1
      ∧ SetOp c1Store "a" [GoVal.vstr "y"] 100
          = (GoRes.err "len limit reached", c1Store, []) := by
  decide

/-- Claim C1, amended: with a positive capacity limit that the current key
count has reached, `Set` with a present, non-nil value is rejected with the
capacity error for every key — existing keys included, since the capacity
check precedes the key lookup — leaving the store unchanged and firing no
event. -/
theorem set_at_capacity_rejects_every_key (st : StashSt) (k : String)
    (i : List GoVal) (now : Int)
    (hinv : lenInv st) (hlim : 0 < st.lenLimit)
    (hfull : st.lenLimit ≤ (st.items.length : Int))
    (hlen : i.length ≠ 0) (hval : i.getD 0 GoVal.vnil ≠ GoVal.vnil) :
    SetOp st k i now = (GoRes.err "len limit reached", st, []) := by
  unfold SetOp
  rw [if_neg (not_or.mpr ⟨hlen, hval⟩), if_pos ⟨hlim, hinv ▸ hfull⟩]

/-- Claim C1, witness for the amended theorem at the concrete store. -/
theorem set_at_capacity_rejects_every_key_witness :
    0 < c1Store.lenLimit ∧ (c1Store.lenLimit ≤ (c1Store.items.length : Int))
      ∧ SetOp c1Store "a" [GoVal.vstr "y"] 100
          = (GoRes.err "len limit reached", c1Store, []) :=
  ⟨by decide, by decide,
    set_at_capacity_rejects_every_key c1Store "a" [GoVal.vstr "y"] 100
      (by unfold lenInv; decide) (by decide) (by decide) (by decide) (by decide)⟩

/-- Claim C2: `Remove` of an absent key is not a safe no-op returning
`(nil, false)` — after finding the key absent, the code evaluates
`o.Object` on the nil `*item` as the payload of the removal event, a
nil-pointer dereference, so the call panics (the map and the count are
nevertheless left unchanged); the per-key removal path of the sweep
(`remove` with kind `Expire`) panics identically on a key already removed,
while removal of a present key succeeds. -/
theorem remove_absent_key_nil_dereference :
    RemoveOp emptyStash "missing" = (GoRes.panicked, emptyStash, [])
      ∧ removeOp c7Store "gone" Event.expire = (GoRes.panicked, c7Store, [])
      ∧ (RemoveOp c7Store "k").1 = GoRes.ok (some ⟨GoVal.vstr "v", 3⟩, true) :=
  ⟨by decide, by decide, by decide⟩

/-- Claim C3, counterexample: configuring the sweep interval with the
non-positive durations 0 and -1ms does not disable the sweeper — the
`GcPeriod` option replaces any duration under ten milliseconds with the
five-minute default, and `New` then starts the sweep loop because the
period is positive. -/
theorem gcPeriod_zero_sweeper_still_started_cex :
    (NewStash [GcPeriodOpt 0]).2 = true
      ∧ (NewStash [GcPeriodOpt 0]).1.gcPeriod = DefaultCgPeriod
      ∧ (NewStash [GcPeriodOpt (-1000000)]).2 = true := by
  decide

/-- Claim C3, amended: a configured sweep interval below ten milliseconds —
non-positive values included — is replaced by the default five-minute
period rather than disabling the sweeper; the resulting period is always
positive, so a store built with the `GcPeriod` option always starts the
background sweep loop. -/
theorem gcPeriod_below_min_becomes_default_sweeper_runs (dur : Int) :
    (NewStash [GcPeriodOpt dur]).1.gcPeriod
        = (if dur < 10 * MillisecondNs then DefaultCgPeriod else dur)
      ∧ 0 < (NewStash [GcPeriodOpt dur]).1.gcPeriod
      ∧ (NewStash [GcPeriodOpt dur]).2 = true := by
  have hpos : 0 < (if dur < 10 * MillisecondNs then DefaultCgPeriod else dur) := by
    split
    · decide
    · next hge =>
      simp only [MillisecondNs, not_lt] at hge
      omega
  refine ⟨rfl, hpos, ?_⟩
  simpa [NewStash, GcPeriodOpt, newDefault] using hpos

/-- Claim C4, counterexample: `Touch` of an absent key returns the nil
error, the very same result a successful touch of a present key returns —
there is no found/not-found result distinguishing the two. -/
theorem touch_absent_reports_success_cex :
    lookupItem emptyStash.items "k" = none
      ∧ lookupItem c7Store.items "k" ≠ none
      ∧ (TouchOp emptyStash "k" [] 5).1 = GoRes.ok ()
      ∧ (TouchOp emptyStash "k" [] 5).1 = (TouchOp c7Store "k" [] 5).1 := by
  decide

/-- Claim C4, amended: for an absent key, `Touch` with a validly resolving
specifier is a no-op on the store and fires no event, but returns the nil
error — a result indistinguishable from a successful touch, not a
not-found report. -/
theorem touch_absent_noop_returns_ok (st : StashSt) (k : String)
    (i : List GoVal) (now e : Int)
    (hres : resolveTime now st.expirePeriod i = GoRes.ok e)
    (hl : lookupItem st.items k = none) :
    TouchOp st k i now = (GoRes.ok (), st, []) := by
  unfold TouchOp
  rw [hres, hl]

/-- Claim C4, witness for the amended theorem at the empty store. -/
theorem touch_absent_noop_returns_ok_witness :
    resolveTime 5 emptyStash.expirePeriod [] = GoRes.ok 0
      ∧ lookupItem emptyStash.items "k" = none
      ∧ TouchOp emptyStash "k" [] 5 = (GoRes.ok (), emptyStash, []) :=
  ⟨by decide, by decide,
    touch_absent_noop_returns_ok emptyStash "k" [] 5 0 (by decide) (by decide)⟩

/-- Claim C5: deadline resolution is not total — the integer arm of
`toTime` selects on every signed (resp. unsigned) width but then
hard-asserts the int64 (resp. uint64) dynamic type, so a specifier of Go
type int, int32 or uint8 panics, and a `Set` carrying such a specifier
panics with it; only an int64 specifier reaches now + duration. -/
theorem toTime_narrow_int_specifier_panics :
    toTime 0 (GoVal.vint .i 5) = none
      ∧ toTime 0 (GoVal.vint .i32 7) = none
      ∧ toTime 0 (GoVal.vuint .u8 3) = none
      ∧ (SetOp emptyStash "k" [GoVal.vstr "v", GoVal.vint .i 5] 0).1 = GoRes.panicked
      ∧ toTime 0 (GoVal.vint .i64 5) = some 5000000000 := by
  decide

/-- Claim C6: when the variadic expiration specifier resolves to an instant
already in the past (and not to never), `Set` returns a rejection
synchronously, performs no mutation, and fires no event; in particular a
key absent before the call is still reported not-found by `Get` after
it. -/
theorem set_past_deadline_no_mutation (st : StashSt) (k : String)
    (i : List GoVal) (now : Int) (msg : String)
    (hres : resolveTime now st.expirePeriod i = GoRes.err msg) :
    (∃ m, (SetOp st k i now).1 = GoRes.err m)
      ∧ (SetOp st k i now).2.1 = st
      ∧ (SetOp st k i now).2.2 = []
      ∧ (lookupItem st.items k = none → (GetOp st k now).1 = (none, false)) := by
  have hget : lookupItem st.items k = none → (GetOp st k now).1 = (none, false) := by
    intro hl
    unfold GetOp
    rw [hl]
  unfold SetOp
  split
  · exact ⟨⟨"object not provided", rfl⟩, rfl, rfl, hget⟩
  · split
    · exact ⟨⟨"len limit reached", rfl⟩, rfl, rfl, hget⟩
    · rw [hres]
      exact ⟨⟨msg, rfl⟩, rfl, rfl, hget⟩

/-- Claim C6, witness at a concrete past-instant specifier. -/
theorem set_past_deadline_no_mutation_witness :
    resolveTime 10 emptyStash.expirePeriod [GoVal.vstr "v", GoVal.vtime 5]
        = GoRes.err "expire time is in the past"
      ∧ (SetOp emptyStash "k" [GoVal.vstr "v", GoVal.vtime 5] 10).2.1 = emptyStash
      ∧ (GetOp emptyStash "k" 10).1 = (none, false) :=
  ⟨by decide,
    (set_past_deadline_no_mutation emptyStash "k" [GoVal.vstr "v", GoVal.vtime 5] 10
      "expire time is in the past" (by decide)).2.1,
    (set_past_deadline_no_mutation emptyStash "k" [GoVal.vstr "v", GoVal.vtime 5] 10
      "expire time is in the past" (by decide)).2.2.2 (by decide)⟩

/-- Claim C7: `Get` of a key whose entry has a positive deadline that has
passed returns not-found and fires `Miss`, but removes or modifies
nothing: the successor state is exactly the input state, so the mapping,
the entry itself, and `Len` are all unchanged — no sweeper involved. -/
theorem get_expired_hidden_entry_preserved (st : StashSt) (k : String)
    (it : Item) (now : Int)
    (hl : lookupItem st.items k = some it)
    (hpos : 0 < it.expire) (hlt : it.expire < now) :
    GetOp st k now = ((none, false), st, [(Event.miss, k, Payload.pnil)])
      ∧ LenOp (GetOp st k now).2.1 = LenOp st
      ∧ lookupItem (GetOp st k now).2.1.items k = some it := by
  unfold GetOp
  rw [hl]
  dsimp only
  rw [if_pos ⟨hpos, hlt⟩]
  exact ⟨rfl, rfl, hl⟩

/-- Claim C7, witness at the concrete store whose entry expired at 3. -/
theorem get_expired_hidden_entry_preserved_witness :
    lookupItem c7Store.items "k" = some ⟨GoVal.vstr "v", 3⟩
      ∧ GetOp c7Store "k" 10
          = ((none, false), c7Store, [(Event.miss, "k", Payload.pnil)]) :=
  ⟨by decide,
    (get_expired_hidden_entry_preserved c7Store "k" ⟨GoVal.vstr "v", 3⟩ 10
      (by decide) (by decide) (by decide)).1⟩

theorem matchesHandler_eq_decide (es : List Event) (ev : Event) :
    matchesHandler es ev = decide (Event.any ∈ es ∨ ev ∈ es) := by
  induction es with
  | nil => simp [matchesHandler]
  | cons e es ih =>
    unfold matchesHandler
    by_cases h : e = Event.any ∨ e = ev
    · rw [if_pos h]
      rcases h with h | h <;> subst h <;> simp
    · rw [if_neg h, ih]
      push_neg at h
      rw [decide_eq_decide]
      simp only [List.mem_cons]
      constructor
      · rintro (ha | hv)
        · exact Or.inl (Or.inr ha)
        · exact Or.inr (Or.inr hv)
      · rintro ((ha | ha) | (hv | hv))
        · exact absurd ha.symm h.1
        · exact Or.inl ha
        · exact absurd hv.symm h.2
        · exact Or.inr hv

/-- Claim C8: firing an event through the observer chain invokes exactly
the callbacks of the links whose subscribed kind-set contains the wildcard
`EventAny` or the fired kind, each at most once: an observer whose filter
excludes the kind is never invoked, and a wildcard observer is invoked for
every kind. -/
theorem fire_invokes_exactly_matching_observers (chain : List EvHandler) (ev : Event) :
    fire chain ev
      = (chain.filter
          (fun h => decide (Event.any ∈ h.events ∨ ev ∈ h.events))).map EvHandler.hid := by
  induction chain with
  | nil => rfl
  | cons h rest ih =>
    unfold fire
    rw [matchesHandler_eq_decide, List.filter_cons]
    by_cases hm : Event.any ∈ h.events ∨ ev ∈ h.events
    · simp [hm, ih]
    · simp [hm, ih]

theorem lenInv_SetOp (st : StashSt) (k : String) (i : List GoVal) (now : Int)
    (h : lenInv st) : lenInv (SetOp st k i now).2.1 := by
  unfold SetOp
  split
  · exact h
  · split
    · exact h
    · split
      · exact h
      · exact h
      · split
        · unfold lenInv at h ⊢
          simpa [length_updateItem] using h
        · rfl

theorem lenInv_TouchOp (st : StashSt) (k : String) (i : List GoVal) (now : Int)
    (h : lenInv st) : lenInv (TouchOp st k i now).2.1 := by
  unfold TouchOp
  split
  · exact h
  · exact h
  · split
    · unfold lenInv at h ⊢
      simpa [length_updateItem] using h
    · exact h

theorem lenInv_GetOp (st : StashSt) (k : String) (now : Int)
    (h : lenInv st) : lenInv (GetOp st k now).2.1 := by
  unfold GetOp
  split
  · exact h
  · split <;> exact h

/-- Claim C9: from a state where the cached live-count equals the number of
keys in the mapping, every completed store operation — `Set`, `Touch`,
`Get`, `Remove`, `Clean`, and each sweep-path removal — reestablishes that
equality; expired-but-unswept entries keep counting until physically
removed, since only structural map changes recompute the count. -/
theorem live_count_matches_mapping_after_ops (st : StashSt) (h : lenInv st) :
    (∀ k i now, lenInv (SetOp st k i now).2.1)
      ∧ (∀ k i now, lenInv (TouchOp st k i now).2.1)
      ∧ (∀ k now, lenInv (GetOp st k now).2.1)
      ∧ (∀ k, lenInv (RemoveOp st k).2.1)
      ∧ lenInv (CleanOp st).1
      ∧ (∀ ev now, lenInv (expireOp st ev now).2.1) :=
  ⟨fun k i now => lenInv_SetOp st k i now h,
   fun k i now => lenInv_TouchOp st k i now h,
   fun k now => lenInv_GetOp st k now h,
   fun k => lenInv_removeOp st k Event.remove h,
   rfl,
   fun ev now => lenInv_sweepRemove ev (expiredKeys st.items now) st h⟩

/-- Claim C9, witness at the concrete one-entry store. -/
theorem live_count_matches_mapping_after_ops_witness :
    lenInv c7Store
      ∧ lenInv (SetOp c7Store "b" [GoVal.vstr "y"] 0).2.1
      ∧ lenInv (expireOp c7Store Event.expire 10).2.1 :=
  ⟨rfl,
   (live_count_matches_mapping_after_ops c7Store rfl).1 "b" [GoVal.vstr "y"] 0,
   (live_count_matches_mapping_after_ops c7Store rfl).2.2.2.2.2 Event.expire 10⟩

/-- Claim C10: `GetString` returns the empty string with false exactly when
`Get` reports not-found; when `Get` finds an unexpired value, `GetString`
returns true together with the stored value itself when it is a string and
with its default formatted textual representation otherwise. -/
theorem getString_agrees_with_get (st : StashSt) (k : String) (now : Int) :
    ((GetStringOp st k now).1 = ("", false) ↔ (GetOp st k now).1.2 = false)
      ∧ ∀ v, (GetOp st k now).1 = (some v, true) →
          (GetStringOp st k now).1
            = ((match v with | .vstr s => s | w => sprintfV w), true) := by
  unfold GetStringOp GetOp
  cases hl : lookupItem st.items k with
  | none =>
    constructor
    · simp
    · intro v hv
      simp at hv
  | some it =>
    obtain ⟨obj, exp⟩ := it
    dsimp only
    by_cases hc : 0 < exp ∧ exp < now
    · rw [if_pos hc]
      constructor
      · simp
      · intro v hv
        simp at hv
    · rw [if_neg hc]
      constructor
      · cases obj <;> simp [sprintfV]
      · intro v hv
        have hov : obj = v := by simpa using hv
        subst hov
        cases obj <;> rfl

/-- Claim C10, witness at the concrete store holding a string value. -/
theorem getString_agrees_with_get_witness :
    (GetOp c7Store "k" 1).1 = (some (GoVal.vstr "v"), true)
      ∧ (GetStringOp c7Store "k" 1).1 = ("v", true) :=
  ⟨by decide,
    (getString_agrees_with_get c7Store "k" 1).2 (GoVal.vstr "v") (by decide)⟩

end GoStash
